import Mathlib

/-!
# Cash-reconciliation core: shallow embedding

A shallow embedding of the balance-derivation and reconciliation engine of the
repository (`src/lib/cash-store.ts`, the handlers of
`src/components/back-safe-withdrawal.tsx`, and the SQL schema shipped with the
components).  The record store is modelled as four in-memory collections, one
per database table, holding the rows of a single authenticated account (every
operation in the source first checks `getCurrentUser()` and acts on that
user's rows; per-account isolation is the adapter's job, so a `Store` value is
one account's data).  Each supabase call is modelled as the corresponding pure
operation on the collection: `select ... order(date, descending)` as a sort,
`insert` as an append, `upsert` as replace-or-append keyed on the conflict
column, `update`/`delete` with an `eq` filter as a map/filter.

Monetary amounts are `DECIMAL(10,2)` columns, modelled as `ℚ`.  Dates and
months are the ISO strings the code stores (`"YYYY-MM-DD"`, `"YYYY-MM"`);
JavaScript compares them with `<`, i.e. lexicographically by code unit, which
for these ASCII strings is exactly the lexicographic order on the underlying
character lists, so comparisons are modelled on `String.data`.
-/

namespace CashStore

/-- JavaScript `a < b` on strings: lexicographic comparison, modelled on the
underlying character lists (identical for the ASCII date/month strings the
code compares). -/
def strLt (a b : String) : Prop := a.data < b.data

/-- JavaScript `a <= b` on strings (used only in derived statements). -/
def strLe (a b : String) : Prop := a.data ≤ b.data

instance (a b : String) : Decidable (strLt a b) :=
  inferInstanceAs (Decidable (a.data < b.data))

instance (a b : String) : Decidable (strLe a b) :=
  inferInstanceAs (Decidable (a.data ≤ b.data))

/-- JavaScript `s.startsWith(p)` (used by the month filters
`t.date.startsWith(month)`). -/
def strStartsWith (s p : String) : Bool := p.data.isPrefixOf s.data

/-- `type TEXT NOT NULL CHECK (type IN ('deposit', 'withdrawal'))` of
`back_safe_transactions`. -/
inductive TxType where
  | deposit
  | withdrawal
deriving DecidableEq, Repr

/-- A row of the `daily_entries` table (timestamp bookkeeping columns are
omitted; `difference` is written on every save by `saveEntry`, so it is kept
non-nullable here, while `left_in_front` keeps its nullable schema type). -/
structure DailyEntryRow where
  id : String
  date : String
  cash_in : ℚ
  deposited : ℚ
  to_back_safe : ℚ
  actual_left_in_front : ℚ
  left_in_front : Option ℚ
  difference : ℚ
  discrepancy_reason : Option String
  manually_approved : Bool
  approval_note : Option String
  approved_at : Option String
deriving DecidableEq, Repr

/-- The client-side `DailyEntry` object produced by `getEntries`. -/
structure DailyEntry where
  id : String
  date : String
  cashIn : ℚ
  deposited : ℚ
  toBackSafe : ℚ
  leftInFront : ℚ
  expectedFrontSafe : ℚ
  difference : ℚ
  isBalanced : Bool
  notes : Option String
  manuallyApproved : Bool
  approvalNote : Option String
  approvedAt : Option String
deriving DecidableEq, Repr

/-- A row of the `back_safe_withdrawals` table. -/
structure BackSafeWithdrawalRow where
  id : String
  date : String
  amount : ℚ
  reason : String
deriving DecidableEq, Repr

/-- A row of the `back_safe_transactions` table. -/
structure BackSafeTransactionRow where
  id : String
  date : String
  type : TxType
  amount : ℚ
  reason : Option String
  entry_id : Option String
  withdrawal_id : Option String
deriving DecidableEq, Repr

/-- The client-side `BackSafeTransaction` object produced by
`getBackSafeTransactions`. -/
structure BackSafeTransaction where
  id : String
  date : String
  type : TxType
  amount : ℚ
  reason : Option String
  fromEntryId : Option String
  withdrawalId : Option String
deriving DecidableEq, Repr

/-- A row of the `monthly_archives` table. -/
structure MonthlyArchiveRow where
  month : String
  starting_front_safe : ℚ
  starting_back_safe : ℚ
  ending_front_safe : ℚ
  ending_back_safe : ℚ
  is_closed : Bool
deriving DecidableEq, Repr

/-- The record store: one authenticated account's rows of the four tables. -/
structure Store where
  entries : List DailyEntryRow
  withdrawals : List BackSafeWithdrawalRow
  transactions : List BackSafeTransactionRow
  archives : List MonthlyArchiveRow
deriving DecidableEq, Repr

/-- The `SafeBalances` object returned by `getBalances` (the `lastUpdated`
timestamp is omitted). -/
structure SafeBalances where
  frontSafe : ℚ
  backSafe : ℚ
deriving DecidableEq, Repr

/-! ## Date-descending reads

Every read in `cash-store.ts` uses `.order("date", { ascending: false })`
(resp. `"month"` for archives): the returned list is the stored collection
sorted by the key, largest first. -/

/-- The date-descending relation used by the ordered reads: `a` may come
before `b` when `b`'s key is at most `a`'s key. -/
def keyGe {α : Type} (key : α → String) (a b : α) : Prop := strLe (key b) (key a)

instance {α : Type} (key : α → String) : DecidableRel (keyGe key) :=
  fun a b => inferInstanceAs (Decidable (strLe (key b) (key a)))

instance {α : Type} (key : α → String) : IsTotal α (keyGe key) :=
  ⟨fun a b => le_total (key b).data (key a).data⟩

instance {α : Type} (key : α → String) : IsTrans α (keyGe key) :=
  ⟨fun _ _ _ h1 h2 => le_trans h2 h1⟩

/-- `.select("*").order(key, { ascending: false })`. -/
def sortByKeyDesc {α : Type} (key : α → String) (l : List α) : List α :=
  List.insertionSort (keyGe key) l

/-! ## cash-store.ts -/

/-- The row-to-client mapping inside `getEntries` (lines 30–46): in
particular `expectedFrontSafe = row.left_in_front || 0` and
`isBalanced = Math.abs(row.difference) < 0.01`. -/
def mkDailyEntry (r : DailyEntryRow) : DailyEntry where
  id := r.id
  date := r.date
  cashIn := r.cash_in
  deposited := r.deposited
  toBackSafe := r.to_back_safe
  leftInFront := r.actual_left_in_front
  expectedFrontSafe := r.left_in_front.getD 0
  difference := r.difference
  isBalanced := decide (|r.difference| < 1 / 100)
  notes := r.discrepancy_reason
  manuallyApproved := r.manually_approved
  approvalNote := r.approval_note
  approvedAt := r.approved_at

/-- `getEntries()`: the user's `daily_entries` rows, date descending, mapped
to client objects. -/
def getEntries (s : Store) : List DailyEntry :=
  (sortByKeyDesc (fun r => r.date) s.entries).map mkDailyEntry

/-- `deleteEntry(id)`: `from("daily_entries").delete().eq("id", id)`.  The
function issues no other call: the linked `back_safe_transactions` row is not
deleted (and the schema's `entry_id` foreign key is `ON DELETE SET NULL`, not
`CASCADE`, so the database does not delete it either). -/
def deleteEntry (s : Store) (id : String) : Store :=
  { s with entries := s.entries.filter (fun r => decide (r.id ≠ id)) }

/-- `approveEntry(id, approvalNote)`: updates `manually_approved`,
`approval_note`, `approved_at` of the matching row (`now` stands for the
`new Date().toISOString()` timestamp). -/
def approveEntry (s : Store) (id approvalNote now : String) : Store :=
  { s with entries := s.entries.map (fun r =>
      if r.id = id then
        { r with manually_approved := true
                 approval_note := some approvalNote
                 approved_at := some now }
      else r) }

/-- `removeApproval(id)`: clears the three approval columns of the matching
row. -/
def removeApproval (s : Store) (id : String) : Store :=
  { s with entries := s.entries.map (fun r =>
      if r.id = id then
        { r with manually_approved := false
                 approval_note := none
                 approved_at := none }
      else r) }

/-- `upsert` on `back_safe_withdrawals` (conflict column `id`): replace the
matching row, or append when none matches. -/
def upsertById (l : List BackSafeWithdrawalRow) (w : BackSafeWithdrawalRow) :
    List BackSafeWithdrawalRow :=
  if l.any (fun y => decide (y.id = w.id)) then
    l.map (fun y => if y.id = w.id then w else y)
  else l ++ [w]

/-- `saveBackSafeTransaction(transaction)`: `insert` into
`back_safe_transactions`. -/
def saveBackSafeTransaction (s : Store) (t : BackSafeTransactionRow) : Store :=
  { s with transactions := s.transactions ++ [t] }

/-- `saveWithdrawal(withdrawal)`: upserts the withdrawal row, then also saves
a linked `withdrawal` transaction of the same date/amount/reason (`txId`
stands for the fresh `crypto.randomUUID()`). -/
def saveWithdrawal (s : Store) (w : BackSafeWithdrawalRow) (txId : String) : Store :=
  saveBackSafeTransaction { s with withdrawals := upsertById s.withdrawals w }
    { id := txId
      date := w.date
      type := TxType.withdrawal
      amount := w.amount
      reason := some w.reason
      entry_id := none
      withdrawal_id := some w.id }

/-- `deleteWithdrawal(id)`: deletes the withdrawal row and the associated
transactions (`delete().eq("withdrawal_id", id)`). -/
def deleteWithdrawal (s : Store) (id : String) : Store :=
  { s with
      withdrawals := s.withdrawals.filter (fun w => decide (w.id ≠ id))
      transactions := s.transactions.filter (fun t => decide (t.withdrawal_id ≠ some id)) }

/-- `updateWithdrawal(id, amount, reason)`: updates `amount` and `reason` of
the matching `back_safe_withdrawals` row.  The function issues no call on
`back_safe_transactions`: the linked ledger transaction is left as it was. -/
def updateWithdrawal (s : Store) (id : String) (amount : ℚ) (reason : String) : Store :=
  { s with withdrawals := s.withdrawals.map (fun w =>
      if w.id = id then { w with amount := amount, reason := reason } else w) }

/-- The row-to-client mapping inside `getBackSafeTransactions`
(lines 269–280). -/
def mkBackSafeTransaction (r : BackSafeTransactionRow) : BackSafeTransaction where
  id := r.id
  date := r.date
  type := r.type
  amount := r.amount
  reason := r.reason
  fromEntryId := r.entry_id
  withdrawalId := r.withdrawal_id

/-- `getBackSafeTransactions()`: the user's ledger rows, date descending,
mapped to client objects. -/
def getBackSafeTransactions (s : Store) : List BackSafeTransaction :=
  (sortByKeyDesc (fun r => r.date) s.transactions).map mkBackSafeTransaction

/-- One step of the `transactionsData.forEach` loop in `getBalances`:
`if (t.type === "deposit") backSafe += t.amount;
 if (t.type === "withdrawal") backSafe -= t.amount`. -/
def txStep (acc : ℚ) (t : BackSafeTransaction) : ℚ :=
  let acc1 := if t.type = TxType.deposit then acc + t.amount else acc
  if t.type = TxType.withdrawal then acc1 - t.amount else acc1

/-- `getBalances()`: front safe from the latest entry
(`entriesData[0]?.leftInFront ?? 0`), back safe folded from the transaction
list. -/
def getBalances (s : Store) : SafeBalances where
  frontSafe := ((getEntries s).head?.map (fun e => e.leftInFront)).getD 0
  backSafe := (getBackSafeTransactions s).foldl txStep 0

/-- `calculateExpectedFrontSafe(previousBalance, cashIn, deposited,
toBackSafe)`. -/
def calculateExpectedFrontSafe (previousBalance cashIn deposited toBackSafe : ℚ) : ℚ :=
  previousBalance + cashIn - deposited - toBackSafe

/-- `getPreviousDayBalance()`: `entries[0].leftInFront` of the
date-descending entry list, falling back to `getBalances().frontSafe` when no
entries exist.  It takes no date argument. -/
def getPreviousDayBalance (s : Store) : ℚ :=
  match getEntries s with
  | [] => (getBalances s).frontSafe
  | e :: _ => e.leftInFront

/-- `getArchives()`: the user's `monthly_archives` rows, month descending
(the client mapping only renames fields used here and attaches empty
entry/withdrawal lists, so rows are returned directly). -/
def getArchives (s : Store) : List MonthlyArchiveRow :=
  sortByKeyDesc (fun a => a.month) s.archives

/-- `upsert` on `monthly_archives` (conflict column `month`, unique per
user/month). -/
def upsertByMonth (l : List MonthlyArchiveRow) (a : MonthlyArchiveRow) :
    List MonthlyArchiveRow :=
  if l.any (fun y => decide (y.month = a.month)) then
    l.map (fun y => if y.month = a.month then a else y)
  else l ++ [a]

/-- `saveArchive(archive)`: upserts the archive row (the attached
entry/withdrawal arrays are not persisted columns). -/
def saveArchive (s : Store) (a : MonthlyArchiveRow) : Store :=
  { s with archives := upsertByMonth s.archives a }

/-- `getEntriesForMonth(month)`: entries whose date starts with the month
string. -/
def getEntriesForMonth (s : Store) (month : String) : List DailyEntry :=
  (getEntries s).filter (fun e => strStartsWith e.date month)

/-- The `const archive = { ... }` literal built by `closeMonth`:
`previousArchive` is `archives.find((a) => a.month < month && a.isClosed)` on
the month-descending archive list, and the starting balances are its ending
balances (`?? 0`). -/
def closeMonthArchive (s : Store) (month : String) : MonthlyArchiveRow where
  month := month
  starting_front_safe :=
    (((getArchives s).find? (fun a => decide (strLt a.month month) && a.is_closed)).map
      (fun a => a.ending_front_safe)).getD 0
  starting_back_safe :=
    (((getArchives s).find? (fun a => decide (strLt a.month month) && a.is_closed)).map
      (fun a => a.ending_back_safe)).getD 0
  ending_front_safe := (getBalances s).frontSafe
  ending_back_safe := (getBalances s).backSafe
  is_closed := true

/-- `closeMonth(month)`: returns `null` when the month has no entries;
otherwise builds the archive (starting balances chained from the previous
closed archive, ending balances snapshotted from the current balances),
saves it, and returns it together with the updated store. -/
def closeMonth (s : Store) (month : String) : Option (MonthlyArchiveRow × Store) :=
  if (getEntriesForMonth s month).isEmpty then none
  else some (closeMonthArchive s month, saveArchive s (closeMonthArchive s month))

/-! ## back-safe-withdrawal.tsx handlers -/

/-- The failure signalled by `handleSubmit` when the requested amount exceeds
the current back-safe balance ("Cannot withdraw more than the current back
safe balance"). -/
inductive CashError where
  | insufficientFunds
deriving DecidableEq, Repr

/-- `handleSubmit` of the withdrawal form composed with `saveWithdrawal`:
rejects the request without touching the store when
`amount > currentBackSafe`, otherwise persists the withdrawal and its linked
transaction (`withdrawalId`/`txId` stand for the fresh UUIDs). -/
def recordWithdrawal (s : Store) (date : String) (amount : ℚ) (reason : String)
    (withdrawalId txId : String) : Except CashError Unit × Store :=
  if amount > (getBalances s).backSafe then
    (Except.error CashError.insufficientFunds, s)
  else
    (Except.ok (),
      saveWithdrawal s { id := withdrawalId, date := date, amount := amount, reason := reason } txId)

/-! ## Spec-side definitions -/

/-- Modelled from the spec: the daily-entry form component (not under
`src/`) computes `difference = actualLeftInFront − expectedFrontSafe` for a
submitted entry. -/
def differenceOf (actualLeftInFront expectedFrontSafe : ℚ) : ℚ :=
  actualLeftInFront - expectedFrontSafe

/-- The spec's rule for the previous balance of a submission dated `date`
(stated from the spec's words, for comparison with the code's
`getPreviousDayBalance`): the front-safe balance as of the most recent entry
strictly before `date`, or 0 if none exists. -/
def previousBalanceSpec (s : Store) (date : String) : ℚ :=
  match (getEntries s).filter (fun e => decide (strLt e.date date)) with
  | [] => 0
  | e :: _ => e.leftInFront

/-- The signed contribution of one ledger transaction to the back-safe
balance: `+amount` for a deposit, `−amount` for a withdrawal. -/
def signedAmount (t : BackSafeTransaction) : ℚ :=
  match t.type with
  | TxType.deposit => t.amount
  | TxType.withdrawal => -t.amount

/-- The signed sum of a transaction list. -/
def signedSum (l : List BackSafeTransaction) : ℚ := (l.map signedAmount).sum

/-- The signed sum of the store's full back-safe ledger. -/
def ledgerSignedSum (s : Store) : ℚ :=
  signedSum (s.transactions.map mkBackSafeTransaction)

/-! ## Concrete states

Small concrete stores used to evaluate the operations on explicit inputs. -/

/-- A concrete `daily_entries` row (the entry form persists
`difference = actual − expected`; concrete rows carry that value as `diff`). -/
def entryRow (id date : String) (cashIn deposited toBackSafe actual expected diff : ℚ) :
    DailyEntryRow where
  id := id
  date := date
  cash_in := cashIn
  deposited := deposited
  to_back_safe := toBackSafe
  actual_left_in_front := actual
  left_in_front := some expected
  difference := diff
  discrepancy_reason := none
  manually_approved := false
  approval_note := none
  approved_at := none

/-- A concrete deposit row of `back_safe_transactions`. -/
def depositTx (id date : String) (amount : ℚ) (entryId : Option String) :
    BackSafeTransactionRow where
  id := id
  date := date
  type := TxType.deposit
  amount := amount
  reason := none
  entry_id := entryId
  withdrawal_id := none

/-- A concrete withdrawal row of `back_safe_transactions`. -/
def withdrawalTx (id date : String) (amount : ℚ) (wId : Option String) :
    BackSafeTransactionRow where
  id := id
  date := date
  type := TxType.withdrawal
  amount := amount
  reason := none
  entry_id := none
  withdrawal_id := wId

/-- Two entries: 2024-03-01 counted 10 left in front, 2024-03-05 counted 99.
A submission for 2024-03-03 is backdated relative to the latter. -/
def c1Store : Store where
  entries :=
    [entryRow "e1" "2024-03-01" 100 90 0 10 10 0,
     entryRow "e2" "2024-03-05" 200 111 0 99 99 0]
  withdrawals := []
  transactions := []
  archives := []

/-- A ledger holding a deposit of 5 and a withdrawal of 2. -/
def c2Store : Store where
  entries := []
  withdrawals := []
  transactions :=
    [depositTx "t1" "2024-03-01" 5 none, withdrawalTx "t2" "2024-03-02" 2 none]
  archives := []

/-- The same ledger as `c2Store` with the two transactions swapped. -/
def c2StoreSwapped : Store where
  entries := []
  withdrawals := []
  transactions :=
    [withdrawalTx "t2" "2024-03-02" 2 none, depositTx "t1" "2024-03-01" 5 none]
  archives := []

/-- The C3 scenario row: 2024-03-01, previousBalance 100, cashIn 500,
deposited 400, toBackSafe 50, actualLeftInFront 150, with the derived
expected value and difference stored as the entry form persists them. -/
def c3Row : DailyEntryRow where
  id := "e1"
  date := "2024-03-01"
  cash_in := 500
  deposited := 400
  to_back_safe := 50
  actual_left_in_front := 150
  left_in_front := some (calculateExpectedFrontSafe 100 500 400 50)
  difference := differenceOf 150 (calculateExpectedFrontSafe 100 500 400 50)
  discrepancy_reason := none
  manually_approved := false
  approval_note := none
  approved_at := none

/-- One entry that transferred 50 to the back safe, with its linked deposit
transaction of 50. -/
def c4Tx : BackSafeTransactionRow := depositTx "t1" "2024-03-01" 50 (some "e1")

/-- The store holding the C4 entry and its linked deposit transaction. -/
def c4Store : Store where
  entries := [entryRow "e1" "2024-03-01" 500 400 50 150 150 0]
  withdrawals := []
  transactions := [c4Tx]
  archives := []

/-- One recorded withdrawal of 100 with its linked ledger transaction, next
to a deposit of 300 (back-safe balance 200). -/
def c5Store : Store where
  entries := []
  withdrawals := [{ id := "w1", date := "2024-03-02", amount := 100, reason := "bank drop" }]
  transactions :=
    [depositTx "t0" "2024-03-01" 300 none,
     withdrawalTx "t1" "2024-03-02" 100 (some "w1")]
  archives := []

/-- A back safe holding exactly 200 (one deposit transaction). -/
def c6Store : Store where
  entries := []
  withdrawals := []
  transactions := [depositTx "t1" "2024-03-01" 200 none]
  archives := []

/-- A single balanced entry, for evaluating the approval operations. -/
def c7Row : DailyEntryRow := entryRow "e7" "2024-03-01" 500 400 50 150 150 0

/-- The store holding `c7Row`. -/
def c7Store : Store where
  entries := [c7Row]
  withdrawals := []
  transactions := []
  archives := []

/-- Two closed archives (2023-12 ending 1/2, 2024-01 ending 5/7) and one
entry in 2024-02, ready for `closeMonth("2024-02")`. -/
def c8Store : Store where
  entries := [entryRow "e8" "2024-02-10" 100 60 0 40 40 0]
  withdrawals := []
  transactions := []
  archives :=
    [{ month := "2023-12", starting_front_safe := 0, starting_back_safe := 0,
       ending_front_safe := 1, ending_back_safe := 2, is_closed := true },
     { month := "2024-01", starting_front_safe := 1, starting_back_safe := 2,
       ending_front_safe := 5, ending_back_safe := 7, is_closed := true }]

/-- A back safe holding 200, before recording a withdrawal of 100. -/
def c9Store : Store where
  entries := []
  withdrawals := []
  transactions := [depositTx "t1" "2024-03-01" 200 none]
  archives := []

/-! ## Helper lemmas -/

theorem sortByKeyDesc_perm {α : Type} (key : α → String) (l : List α) :
    (sortByKeyDesc key l).Perm l :=
  List.perm_insertionSort _ l

theorem mem_sortByKeyDesc {α : Type} {key : α → String} {l : List α} {x : α} :
    x ∈ sortByKeyDesc key l ↔ x ∈ l :=
  (sortByKeyDesc_perm key l).mem_iff

theorem sorted_sortByKeyDesc {α : Type} (key : α → String) (l : List α) :
    List.Sorted (keyGe key) (sortByKeyDesc key l) :=
  List.sorted_insertionSort _ l

/-- On a key-descending list, `find?` returns a match of maximal key. -/
theorem find_max_of_sorted {α : Type} {key : α → String} {p : α → Bool} {l : List α}
    (hs : List.Sorted (keyGe key) l) {x : α} (hx : l.find? p = some x) :
    ∀ y ∈ l, p y = true → strLe (key y) (key x) := by
  induction l with
  | nil => simp at hx
  | cons a t ih =>
    cases hpa : p a with
    | true =>
      rw [List.find?_cons_of_pos _ hpa, Option.some.injEq] at hx
      subst hx
      intro y hy _
      rcases List.mem_cons.mp hy with h | h
      · subst h; exact le_refl _
      · exact List.rel_of_sorted_cons hs y h
    | false =>
      rw [List.find?_cons_of_neg _ (by simp [hpa])] at hx
      intro y hy hpy
      rcases List.mem_cons.mp hy with h | h
      · subst h; rw [hpa] at hpy; cases hpy
      · exact ih hs.of_cons hx y h hpy

/-- The head of a key-descending list has maximal key. -/
theorem head_max_of_sorted {α : Type} {key : α → String} {a : α} {t : List α}
    (hs : List.Sorted (keyGe key) (a :: t)) : ∀ y ∈ a :: t, strLe (key y) (key a) := by
  intro y hy
  rcases List.mem_cons.mp hy with h | h
  · subst h; exact le_refl _
  · exact List.rel_of_sorted_cons hs y h

theorem txStep_eq (acc : ℚ) (t : BackSafeTransaction) :
    txStep acc t = acc + signedAmount t := by
  cases h : t.type
  · simp [txStep, signedAmount, h]
  · simp [txStep, signedAmount, h, sub_eq_add_neg]

theorem foldl_txStep (l : List BackSafeTransaction) (acc : ℚ) :
    l.foldl txStep acc = acc + signedSum l := by
  induction l generalizing acc with
  | nil => simp [signedSum]
  | cons t ts ih =>
    simp only [List.foldl_cons, ih, txStep_eq, signedSum, List.map_cons, List.sum_cons]
    ring

theorem signedSum_perm {l l' : List BackSafeTransaction} (h : l.Perm l') :
    signedSum l = signedSum l' :=
  (h.map signedAmount).sum_eq

/-- The folded back-safe balance is the signed sum of the stored ledger. -/
theorem getBalances_backSafe (s : Store) :
    (getBalances s).backSafe = ledgerSignedSum s := by
  have h1 : (getBalances s).backSafe = signedSum (getBackSafeTransactions s) := by
    simp [getBalances, foldl_txStep]
  rw [h1]
  exact signedSum_perm ((sortByKeyDesc_perm _ s.transactions).map mkBackSafeTransaction)

theorem orderedInsert_map_key {α : Type} {key : α → String} {f : α → α}
    (hf : ∀ a, key (f a) = key a) (x : α) (l : List α) :
    List.orderedInsert (keyGe key) (f x) (l.map f) =
      (List.orderedInsert (keyGe key) x l).map f := by
  induction l with
  | nil => rfl
  | cons y t ih =>
    have hcond : keyGe key (f x) (f y) ↔ keyGe key x y := by
      unfold keyGe strLe; rw [hf, hf]
    simp only [List.map_cons, List.orderedInsert]
    by_cases h : keyGe key x y
    · rw [if_pos (hcond.mpr h), if_pos h, List.map_cons, List.map_cons]
    · rw [if_neg (fun hc => h (hcond.mp hc)), if_neg h, List.map_cons, ih]

/-- A key-preserving row update commutes with the key-descending sort. -/
theorem sortByKeyDesc_map_key {α : Type} {key : α → String} {f : α → α}
    (hf : ∀ a, key (f a) = key a) (l : List α) :
    sortByKeyDesc key (l.map f) = (sortByKeyDesc key l).map f := by
  induction l with
  | nil => rfl
  | cons x t ih =>
    simp only [List.map_cons, sortByKeyDesc, List.insertionSort] at *
    rw [ih, orderedInsert_map_key hf]

/-- A row update that keeps `difference` unchanged keeps the
difference/isBalanced projection of the mapped client entries unchanged. -/
theorem map_proj_map_update (f : DailyEntryRow → DailyEntryRow)
    (hdif : ∀ r, (f r).difference = r.difference) (l : List DailyEntryRow) :
    ((l.map f).map mkDailyEntry).map (fun e => (e.difference, e.isBalanced)) =
      (l.map mkDailyEntry).map (fun e => (e.difference, e.isBalanced)) := by
  induction l with
  | nil => rfl
  | cons r t ih =>
    simp only [List.map_cons, ih, List.cons.injEq, and_true]
    simp [mkDailyEntry, hdif]

theorem getEntries_sorted (s : Store) :
    List.Sorted (keyGe (fun e : DailyEntry => e.date)) (getEntries s) := by
  unfold getEntries
  refine List.pairwise_map.mpr ?_
  exact (sorted_sortByKeyDesc (fun r : DailyEntryRow => r.date) s.entries).imp
    (fun hab => hab)

theorem mem_getEntries {s : Store} {e : DailyEntry} :
    e ∈ getEntries s ↔ ∃ r ∈ s.entries, mkDailyEntry r = e := by
  unfold getEntries
  simp only [List.mem_map]
  constructor
  · rintro ⟨r, hr, hre⟩; exact ⟨r, mem_sortByKeyDesc.mp hr, hre⟩
  · rintro ⟨r, hr, hre⟩; exact ⟨r, mem_sortByKeyDesc.mpr hr, hre⟩

/-! ## Claims -/

/-- Claim C1, counterexample: with entries dated 2024-03-01 (counted balance
10) and 2024-03-05 (counted balance 99), the previous balance the code
supplies for a backdated 2024-03-03 submission is 99 — the balance of the
globally latest entry — while the claimed rule (balance as of the most recent
entry strictly before the submission date) yields 10. -/
theorem getPreviousDayBalance_backdated_counterexample :
    getPreviousDayBalance c1Store = 99 ∧
    previousBalanceSpec c1Store "2024-03-03" = 10 ∧
    getPreviousDayBalance c1Store ≠ previousBalanceSpec c1Store "2024-03-03" :=
  ⟨by decide, by decide, by decide⟩

/-- Claim C1, amended: the previous balance used for a submission is
`getPreviousDayBalance()`, which takes no date and always returns the balance
of the globally latest entry (0 when no entries exist); it agrees with the
claimed chronological-predecessor rule exactly when the submission date is
later than every stored entry's date. -/
theorem getPreviousDayBalance_latest_entry (s : Store) (date : String)
    (h : ∀ r ∈ s.entries, strLt r.date date) :
    getPreviousDayBalance s = previousBalanceSpec s date := by
  have hall : ∀ e ∈ getEntries s,
      (fun e : DailyEntry => decide (strLt e.date date)) e = true := by
    intro e he
    rcases mem_getEntries.mp he with ⟨r, hr, hre⟩
    subst hre
    exact decide_eq_true (h r hr)
  unfold previousBalanceSpec
  rw [List.filter_eq_self.mpr hall]
  unfold getPreviousDayBalance
  cases hg : getEntries s with
  | nil => simp [getBalances, hg]
  | cons e t => rfl

/-- Witness for the amended C1 theorem at a concrete input. -/
theorem getPreviousDayBalance_latest_entry_witness :
    (∀ r ∈ c1Store.entries, strLt r.date "2024-03-07") ∧
    getPreviousDayBalance c1Store = previousBalanceSpec c1Store "2024-03-07" :=
  ⟨by decide, getPreviousDayBalance_latest_entry c1Store "2024-03-07" (by decide)⟩

/-- Claim C2: the back-safe balance returned by `getBalances` is the signed
sum of the full transaction ledger (deposits added, withdrawals subtracted,
starting from 0), and it is invariant under any reordering of the ledger. -/
theorem getBalances_backSafe_signedSum :
    ∀ s : Store,
      (getBalances s).backSafe = ledgerSignedSum s ∧
      ∀ s' : Store, s.transactions.Perm s'.transactions →
        (getBalances s).backSafe = (getBalances s').backSafe := by
  intro s
  refine ⟨getBalances_backSafe s, fun s' hperm => ?_⟩
  rw [getBalances_backSafe s, getBalances_backSafe s']
  exact signedSum_perm (hperm.map _)

/-- Witness for C2 at a concrete input: a deposit of 5 and a withdrawal of 2
give balance 3, in either order. -/
theorem getBalances_backSafe_signedSum_witness :
    c2Store.transactions.Perm c2StoreSwapped.transactions ∧
    (getBalances c2Store).backSafe = (getBalances c2StoreSwapped).backSafe ∧
    (getBalances c2Store).backSafe = ledgerSignedSum c2Store ∧
    (getBalances c2Store).backSafe = 3 :=
  ⟨by decide,
    (getBalances_backSafe_signedSum c2Store).2 c2StoreSwapped (by decide),
    (getBalances_backSafe_signedSum c2Store).1,
    by
      rw [getBalances_backSafe]
      norm_num [ledgerSignedSum, signedSum, signedAmount, c2Store, depositTx,
        withdrawalTx, mkBackSafeTransaction]⟩

/-- Claim C3: `calculateExpectedFrontSafe` computes
`previousBalance + cashIn − deposited − toBackSafe`; on the scenario
(previousBalance 100, cashIn 500, deposited 400, toBackSafe 50,
actualLeftInFront 150) it yields 150, the stored difference is 0, and the
entry comes back balanced. -/
theorem calculateExpectedFrontSafe_formula :
    (∀ previousBalance cashIn deposited toBackSafe : ℚ,
        calculateExpectedFrontSafe previousBalance cashIn deposited toBackSafe =
          previousBalance + cashIn - deposited - toBackSafe) ∧
    calculateExpectedFrontSafe 100 500 400 50 = 150 ∧
    differenceOf 150 (calculateExpectedFrontSafe 100 500 400 50) = 0 ∧
    (mkDailyEntry c3Row).expectedFrontSafe = 150 ∧
    (mkDailyEntry c3Row).difference = 0 ∧
    (mkDailyEntry c3Row).isBalanced = true := by
  refine ⟨fun _ _ _ _ => rfl, ?_, ?_, ?_, ?_, ?_⟩
  · norm_num [calculateExpectedFrontSafe]
  · norm_num [differenceOf, calculateExpectedFrontSafe]
  · norm_num [mkDailyEntry, c3Row, calculateExpectedFrontSafe]
  · norm_num [mkDailyEntry, c3Row, differenceOf, calculateExpectedFrontSafe]
  · simp only [mkDailyEntry, c3Row, differenceOf, calculateExpectedFrontSafe,
      decide_eq_true_eq]
    norm_num

/-- Claim C4 is violated by the code: `deleteEntry` deletes only the
`daily_entries` row and issues no delete on `back_safe_transactions` (whose
`entry_id` foreign key is `ON DELETE SET NULL`, not `CASCADE`), so the linked
deposit transaction of 50 survives the deletion and the back-safe balance
still includes its amount. -/
theorem deleteEntry_leaves_linked_transaction :
    deleteEntry c4Store "e1" = { c4Store with entries := [] } ∧
    c4Tx ∈ (deleteEntry c4Store "e1").transactions ∧
    c4Tx.entry_id = some "e1" ∧
    (getBalances c4Store).backSafe = 50 ∧
    (getBalances (deleteEntry c4Store "e1")).backSafe = 50 := by
  refine ⟨by decide, by decide, by decide, ?_, ?_⟩
  · rw [getBalances_backSafe]
    norm_num [ledgerSignedSum, signedSum, signedAmount, c4Store, c4Tx, depositTx,
      mkBackSafeTransaction]
  · rw [getBalances_backSafe]
    norm_num [ledgerSignedSum, signedSum, signedAmount, deleteEntry, c4Store, c4Tx,
      depositTx, mkBackSafeTransaction]

/-- Claim C5 is violated by the code: `updateWithdrawal` updates only the
`back_safe_withdrawals` row and never touches the linked ledger transaction,
so after editing the withdrawal from 100 to 60 the transaction linked to it
still carries the stale amount 100 and the ledger-derived balance is
unchanged. -/
theorem updateWithdrawal_leaves_transaction_stale :
    (updateWithdrawal c5Store "w1" 60 "till change").withdrawals =
      [{ id := "w1", date := "2024-03-02", amount := 60, reason := "till change" }] ∧
    (updateWithdrawal c5Store "w1" 60 "till change").transactions = c5Store.transactions ∧
    ((updateWithdrawal c5Store "w1" 60 "till change").transactions.find?
        (fun t => decide (t.withdrawal_id = some "w1"))).map (fun t => t.amount) =
      some 100 ∧
    (getBalances (updateWithdrawal c5Store "w1" 60 "till change")).backSafe = 200 ∧
    (getBalances c5Store).backSafe = 200 := by
  refine ⟨by decide, by decide, by decide, ?_, ?_⟩
  · rw [getBalances_backSafe]
    norm_num [ledgerSignedSum, signedSum, signedAmount, updateWithdrawal, c5Store,
      depositTx, withdrawalTx, mkBackSafeTransaction]
  · rw [getBalances_backSafe]
    norm_num [ledgerSignedSum, signedSum, signedAmount, c5Store, depositTx,
      withdrawalTx, mkBackSafeTransaction]

/-- Claim C6: a withdrawal request whose amount exceeds the current back-safe
balance is rejected with the insufficient-funds failure and the store is
returned unchanged, so no withdrawal row or ledger transaction is persisted
and the balance is the same before and after. -/
theorem recordWithdrawal_insufficient_funds (s : Store) (date : String) (amount : ℚ)
    (reason withdrawalId txId : String)
    (h : amount > (getBalances s).backSafe) :
    recordWithdrawal s date amount reason withdrawalId txId =
      (Except.error CashError.insufficientFunds, s) ∧
    (getBalances (recordWithdrawal s date amount reason withdrawalId txId).2).backSafe =
      (getBalances s).backSafe := by
  have h1 : recordWithdrawal s date amount reason withdrawalId txId =
      (Except.error CashError.insufficientFunds, s) := by
    unfold recordWithdrawal
    rw [if_pos h]
  exact ⟨h1, by rw [h1]⟩

/-- Witness for C6: balance 200, request 250 — rejected, store unchanged. -/
theorem recordWithdrawal_insufficient_funds_witness :
    (getBalances c6Store).backSafe = 200 ∧
    (250 : ℚ) > (getBalances c6Store).backSafe ∧
    recordWithdrawal c6Store "2024-03-02" 250 "bank drop" "w1" "t2" =
      (Except.error CashError.insufficientFunds, c6Store) := by
  have hbal : (getBalances c6Store).backSafe = 200 := by
    rw [getBalances_backSafe]
    norm_num [ledgerSignedSum, signedSum, signedAmount, c6Store, depositTx,
      mkBackSafeTransaction]
  have hgt : (250 : ℚ) > (getBalances c6Store).backSafe := by rw [hbal]; norm_num
  exact ⟨hbal, hgt,
    (recordWithdrawal_insufficient_funds c6Store "2024-03-02" 250 "bank drop" "w1" "t2"
      hgt).1⟩

/-- Claim C10: `getPreviousDayBalance()` returns exactly the `frontSafe`
field of `getBalances()` — the `leftInFront` of the first (latest-dated)
returned entry, or 0 when no entries exist; it takes no date argument, so its
result cannot depend on a prospective entry date. -/
theorem getPreviousDayBalance_eq_frontSafe :
    ∀ s : Store,
      getPreviousDayBalance s = (getBalances s).frontSafe ∧
      (getBalances s).frontSafe =
        ((getEntries s).head?.map (fun e => e.leftInFront)).getD 0 ∧
      ∀ e' ∈ getEntries s,
        strLe e'.date (((getEntries s).head?.map (fun e => e.date)).getD e'.date) := by
  intro s
  refine ⟨?_, rfl, ?_⟩
  · unfold getPreviousDayBalance
    cases h : getEntries s with
    | nil => rfl
    | cons e t => simp [getBalances, h]
  · intro e' he'
    have hs := getEntries_sorted s
    cases h : getEntries s with
    | nil => rw [h] at he'; simp at he'
    | cons e t =>
      rw [h] at he' hs
      show strLe e'.date e.date
      exact head_max_of_sorted hs e' he'

/-- Witness for C10 at a concrete input. -/
theorem getPreviousDayBalance_eq_frontSafe_witness :
    mkDailyEntry c7Row ∈ getEntries c7Store ∧
    strLe (mkDailyEntry c7Row).date
      (((getEntries c7Store).head?.map (fun e => e.date)).getD (mkDailyEntry c7Row).date) ∧
    getPreviousDayBalance c7Store = (getBalances c7Store).frontSafe :=
  ⟨List.mem_cons_self _ _,
    (getPreviousDayBalance_eq_frontSafe c7Store).2.2 (mkDailyEntry c7Row)
      (List.mem_cons_self _ _),
    (getPreviousDayBalance_eq_frontSafe c7Store).1⟩

/-- Claim C7: every returned entry satisfies `isBalanced` exactly when
`|difference| < 0.01`, and approving an entry (setting `manuallyApproved`,
`approvalNote`, `approvedAt`) or removing the approval changes neither
`difference` nor `isBalanced` of any entry. -/
theorem isBalanced_pure_of_difference :
    ∀ (s : Store) (id approvalNote now : String),
      (∀ e ∈ getEntries s, (e.isBalanced = true ↔ |e.difference| < 1 / 100)) ∧
      (getEntries (approveEntry s id approvalNote now)).map
          (fun e => (e.difference, e.isBalanced)) =
        (getEntries s).map (fun e => (e.difference, e.isBalanced)) ∧
      (getEntries (removeApproval s id)).map (fun e => (e.difference, e.isBalanced)) =
        (getEntries s).map (fun e => (e.difference, e.isBalanced)) := by
  intro s id approvalNote now
  refine ⟨?_, ?_, ?_⟩
  · intro e he
    rcases mem_getEntries.mp he with ⟨r, -, hre⟩
    subst hre
    simp [mkDailyEntry]
  · simp only [getEntries, approveEntry]
    rw [sortByKeyDesc_map_key (fun a => by by_cases hab : a.id = id <;> simp [hab])]
    exact map_proj_map_update _
      (fun r => by by_cases hab : r.id = id <;> simp [hab])
      (sortByKeyDesc (fun r => r.date) s.entries)
  · simp only [getEntries, removeApproval]
    rw [sortByKeyDesc_map_key (fun a => by by_cases hab : a.id = id <;> simp [hab])]
    exact map_proj_map_update _
      (fun r => by by_cases hab : r.id = id <;> simp [hab])
      (sortByKeyDesc (fun r => r.date) s.entries)

/-- Witness for C7 at a concrete input. -/
theorem isBalanced_pure_of_difference_witness :
    mkDailyEntry c7Row ∈ getEntries c7Store ∧
    ((mkDailyEntry c7Row).isBalanced = true ↔ |(mkDailyEntry c7Row).difference| < 1 / 100) ∧
    (getEntries (approveEntry c7Store "e7" "checked with manager" "2024-03-02T10:00:00Z")).map
        (fun e => (e.difference, e.isBalanced)) =
      (getEntries c7Store).map (fun e => (e.difference, e.isBalanced)) ∧
    (getEntries (removeApproval c7Store "e7")).map (fun e => (e.difference, e.isBalanced)) =
      (getEntries c7Store).map (fun e => (e.difference, e.isBalanced)) :=
  ⟨List.mem_cons_self _ _,
    (isBalanced_pure_of_difference c7Store "e7" "checked with manager"
      "2024-03-02T10:00:00Z").1 (mkDailyEntry c7Row) (List.mem_cons_self _ _),
    (isBalanced_pure_of_difference c7Store "e7" "checked with manager"
      "2024-03-02T10:00:00Z").2.1,
    (isBalanced_pure_of_difference c7Store "e7" "checked with manager"
      "2024-03-02T10:00:00Z").2.2⟩

/-- Claim C8: the archive written by `closeMonth(M)` carries starting
balances equal to the ending balances of the closed archive with the greatest
month lexicographically below `M`, or 0/0 when no closed archive with a
smaller month exists. -/
theorem closeMonth_starting_balances (s : Store) (month : String)
    (a : MonthlyArchiveRow) (s' : Store)
    (h : closeMonth s month = some (a, s')) :
    a.month = month ∧ a.is_closed = true ∧ s' = saveArchive s a ∧
    ((∃ p ∈ s.archives, p.is_closed = true ∧ strLt p.month month ∧
        a.starting_front_safe = p.ending_front_safe ∧
        a.starting_back_safe = p.ending_back_safe ∧
        ∀ q ∈ s.archives, q.is_closed = true → strLt q.month month →
          strLe q.month p.month) ∨
      ((∀ q ∈ s.archives, q.is_closed = true → ¬ strLt q.month month) ∧
        a.starting_front_safe = 0 ∧ a.starting_back_safe = 0)) := by
  unfold closeMonth at h
  by_cases hemp : (getEntriesForMonth s month).isEmpty = true
  · rw [if_pos hemp] at h
    exact Option.noConfusion h
  · rw [if_neg hemp, Option.some.injEq, Prod.mk.injEq] at h
    obtain ⟨ha, hs'⟩ := h
    subst ha
    subst hs'
    refine ⟨rfl, rfl, rfl, ?_⟩
    cases hf : (getArchives s).find?
        (fun x => decide (strLt x.month month) && x.is_closed) with
    | none =>
      refine Or.inr ⟨?_, by simp [closeMonthArchive, hf], by simp [closeMonthArchive, hf]⟩
      intro q hq hqc hql
      have hmem : q ∈ getArchives s := mem_sortByKeyDesc.mpr hq
      exact List.find?_eq_none.mp hf q hmem
        (by rw [Bool.and_eq_true]; exact ⟨decide_eq_true hql, hqc⟩)
    | some p =>
      have hpmem : p ∈ s.archives := mem_sortByKeyDesc.mp (List.mem_of_find?_eq_some hf)
      have hppred := List.find?_some hf
      rw [Bool.and_eq_true] at hppred
      obtain ⟨hplt, hpc⟩ := hppred
      refine Or.inl ⟨p, hpmem, hpc, of_decide_eq_true hplt,
        by simp [closeMonthArchive, hf], by simp [closeMonthArchive, hf], ?_⟩
      intro q hq hqc hql
      exact find_max_of_sorted (sorted_sortByKeyDesc _ _) hf q (mem_sortByKeyDesc.mpr hq)
        (by rw [Bool.and_eq_true]; exact ⟨decide_eq_true hql, hqc⟩)

/-- Witness for C8 at a concrete input: closing 2024-02 after the closed
archives 2023-12 (ending 1/2) and 2024-01 (ending 5/7) starts from 5/7. -/
theorem closeMonth_starting_balances_witness :
    closeMonth c8Store "2024-02" =
      some (closeMonthArchive c8Store "2024-02",
        saveArchive c8Store (closeMonthArchive c8Store "2024-02")) ∧
    (closeMonthArchive c8Store "2024-02").starting_front_safe = 5 ∧
    (closeMonthArchive c8Store "2024-02").starting_back_safe = 7 ∧
    (closeMonthArchive c8Store "2024-02").month = "2024-02" :=
  ⟨rfl, by decide, by decide,
    (closeMonth_starting_balances c8Store "2024-02" (closeMonthArchive c8Store "2024-02")
      (saveArchive c8Store (closeMonthArchive c8Store "2024-02")) rfl).1⟩

/-- Deleting a freshly saved withdrawal restores the store exactly. -/
theorem deleteWithdrawal_saveWithdrawal (s : Store) (w0 : BackSafeWithdrawalRow)
    (txId : String)
    (hw : ∀ w ∈ s.withdrawals, w.id ≠ w0.id)
    (ht : ∀ t ∈ s.transactions, t.withdrawal_id ≠ some w0.id) :
    deleteWithdrawal (saveWithdrawal s w0 txId) w0.id = s := by
  have hup : upsertById s.withdrawals w0 = s.withdrawals ++ [w0] := by
    unfold upsertById
    rw [if_neg]
    intro hc
    rw [List.any_eq_true] at hc
    obtain ⟨y, hy, hyid⟩ := hc
    exact hw y hy (of_decide_eq_true hyid)
  have hW : (s.withdrawals ++ [w0]).filter (fun w => decide (w.id ≠ w0.id)) =
      s.withdrawals := by
    rw [List.filter_append,
      List.filter_eq_self.mpr (fun w hwmem => decide_eq_true (hw w hwmem))]
    have hsingle : List.filter (fun w => decide (w.id ≠ w0.id)) [w0] = [] := by simp
    rw [hsingle, List.append_nil]
  have hT : (s.transactions ++
        [({ id := txId, date := w0.date, type := TxType.withdrawal, amount := w0.amount,
            reason := some w0.reason, entry_id := none,
            withdrawal_id := some w0.id } : BackSafeTransactionRow)]).filter
      (fun t => decide (t.withdrawal_id ≠ some w0.id)) = s.transactions := by
    rw [List.filter_append,
      List.filter_eq_self.mpr (fun t htmem => decide_eq_true (ht t htmem))]
    have hsingle : List.filter (fun t => decide (t.withdrawal_id ≠ some w0.id))
        [({ id := txId, date := w0.date, type := TxType.withdrawal, amount := w0.amount,
            reason := some w0.reason, entry_id := none,
            withdrawal_id := some w0.id } : BackSafeTransactionRow)] = [] := by simp
    rw [hsingle, List.append_nil]
  simp only [deleteWithdrawal, saveWithdrawal, saveBackSafeTransaction]
  rw [hup, hW, hT]

/-- Claim C9: recording a withdrawal with fresh identifiers and then deleting
it restores the store exactly — in particular the back-safe balance returns
to its pre-withdrawal value and no transaction linked to the withdrawal
remains. -/
theorem recordWithdrawal_delete_roundtrip (s : Store) (date : String) (amount : ℚ)
    (reason withdrawalId txId : String)
    (hbal : amount ≤ (getBalances s).backSafe)
    (hw : ∀ w ∈ s.withdrawals, w.id ≠ withdrawalId)
    (ht : ∀ t ∈ s.transactions, t.withdrawal_id ≠ some withdrawalId) :
    (recordWithdrawal s date amount reason withdrawalId txId).1 = Except.ok () ∧
    deleteWithdrawal (recordWithdrawal s date amount reason withdrawalId txId).2
      withdrawalId = s ∧
    (getBalances (deleteWithdrawal
        (recordWithdrawal s date amount reason withdrawalId txId).2 withdrawalId)).backSafe =
      (getBalances s).backSafe ∧
    ∀ t ∈ (deleteWithdrawal (recordWithdrawal s date amount reason withdrawalId txId).2
        withdrawalId).transactions,
      t.withdrawal_id ≠ some withdrawalId := by
  have hrec : recordWithdrawal s date amount reason withdrawalId txId =
      (Except.ok (), saveWithdrawal s
        { id := withdrawalId, date := date, amount := amount, reason := reason } txId) := by
    unfold recordWithdrawal
    rw [if_neg (not_lt.mpr hbal)]
  have hdel : deleteWithdrawal (recordWithdrawal s date amount reason withdrawalId txId).2
      withdrawalId = s := by
    rw [hrec]
    exact deleteWithdrawal_saveWithdrawal s
      { id := withdrawalId, date := date, amount := amount, reason := reason } txId hw ht
  refine ⟨by rw [hrec], hdel, by rw [hdel], fun t htmem => ?_⟩
  rw [hdel] at htmem
  exact ht t htmem

/-- Witness for C9 at a concrete input: balance 200, record a withdrawal of
100 ("bank drop"), delete it — the store is restored. -/
theorem recordWithdrawal_delete_roundtrip_witness :
    (100 : ℚ) ≤ (getBalances c9Store).backSafe ∧
    (∀ w ∈ c9Store.withdrawals, w.id ≠ "w1") ∧
    (∀ t ∈ c9Store.transactions, t.withdrawal_id ≠ some "w1") ∧
    deleteWithdrawal (recordWithdrawal c9Store "2024-03-02" 100 "bank drop" "w1" "t2").2
      "w1" = c9Store := by
  have hbal : (getBalances c9Store).backSafe = 200 := by
    rw [getBalances_backSafe]
    norm_num [ledgerSignedSum, signedSum, signedAmount, c9Store, depositTx,
      mkBackSafeTransaction]
  have hle : (100 : ℚ) ≤ (getBalances c9Store).backSafe := by rw [hbal]; norm_num
  exact ⟨hle, by decide, by decide,
    (recordWithdrawal_delete_roundtrip c9Store "2024-03-02" 100 "bank drop" "w1" "t2"
      hle (by decide) (by decide)).2.1⟩

end CashStore
